import Mathlib

/-!
Verification development for the session-negotiation core of the meeting
application (source: src/features/video-call/hooks/useWebRTC.ts).

The embedding models the hook state (participants roster, peer-connection
registry, pending join requests, connection status) and every signaling
handler as a pure function from state to an outcome consisting of the new
state, the list of emitted side effects (socket messages, console logs,
notification sounds), and a flag recording whether an exception escaped
the handler uncaught (an unhandled promise rejection in the source).
Fallible WebRTC primitives (createOffer, setLocalDescription,
setRemoteDescription, createAnswer, addIceCandidate) are driven by an
explicit environment of success flags.
-/

namespace MeetingApp

/-- A media track: its kind (audio or video) and an identity tag. -/
structure Track where
  kind : String
  tid : Nat
deriving DecidableEq

/-- A media stream: an identity tag and the tracks it carries
(MediaStream.getTracks in the source). -/
structure MediaStream where
  sid : Nat
  tracks : List Track
deriving DecidableEq

/-- The type of a session description. -/
inductive SDPType where
  | offerSDP
  | answerSDP
deriving DecidableEq

/-- A session description (RTCSessionDescriptionInit): its type and an
abstract payload distinguishing distinct descriptions. -/
structure SessionDesc where
  typ : SDPType
  payload : Nat
deriving DecidableEq

/-- The per-peer connection object (RTCPeerConnection as used by the hook):
the senders created by addTrack, the local and remote descriptions, the
remote candidates applied so far, and whether close() was called. -/
structure PeerConn where
  senders : List Track
  localDesc : Option SessionDesc
  remoteDesc : Option SessionDesc
  remoteCandidates : List Nat
  closed : Bool
deriving DecidableEq

/-- A roster entry (interface Participant in the source). -/
structure Participant where
  id : String
  name : String
  stream : Option Nat
  isMicOn : Bool
  isCameraOn : Bool
deriving DecidableEq

/-- A pending join request (admission flow payload). -/
structure JoinReq where
  userId : String
  userName : String
deriving DecidableEq

/-- The connectionStatus state variable. -/
inductive ConnStatus where
  | connecting
  | waiting
  | joined
  | rejected
deriving DecidableEq

/-- The mutable state of the hook: participants roster, the peer registry
(peersRef, a Map from user id to RTCPeerConnection, modelled as an
insertion-ordered association list), pendingRequests, connectionStatus. -/
structure RTCState where
  participants : List Participant
  peers : List (String × PeerConn)
  pendingRequests : List JoinReq
  connectionStatus : ConnStatus
deriving DecidableEq

/-- The initial hook state: empty roster, empty registry, no pending
requests, status connecting. -/
def initState : RTCState :=
  { participants := [], peers := [], pendingRequests := [],
    connectionStatus := ConnStatus.connecting }

/-- Outgoing side effects: socket.emit messages, console logs, and the
notification sound. -/
inductive OutEvent where
  | offerEv (roomId toId : String) (desc : SessionDesc) (userName : String)
  | answerEv (roomId toId : String) (desc : SessionDesc)
  | iceCandidateEv (roomId toId : String) (candidate : Nat)
  | admitUserEv (userId roomId : String)
  | rejectUserEv (userId roomId : String)
  | toggleMediaEv (roomId kind : String) (isOn : Bool)
  | logEv (msg : String)
  | soundEv
deriving DecidableEq

/-- Environment of success flags for the fallible WebRTC primitives, plus
the payloads of freshly generated descriptions. -/
structure Env where
  createOfferOk : Bool
  setLocalOk : Bool
  setRemoteOk : Bool
  createAnswerOk : Bool
  addIceOk : Bool
  offerPayload : Nat
  answerPayload : Nat
deriving DecidableEq

/-- Outcome of running one handler: the state afterwards, the side effects
emitted, and whether an exception escaped the handler uncaught. -/
structure HResult where
  state : RTCState
  out : List OutEvent
  threw : Bool
deriving DecidableEq

/-- The fresh connection object built by createPeerConnection: new
RTCPeerConnection followed by addTrack for every local track. -/
def newPeerConn (stream : MediaStream) : PeerConn :=
  { senders := stream.tracks, localDesc := none, remoteDesc := none,
    remoteCandidates := [], closed := false }

/-- The roster record built for a newly seen remote user: no stream yet,
mic and camera optimistically on. -/
def freshParticipant (u : JoinReq) : Participant :=
  { id := u.userId, name := u.userName, stream := none,
    isMicOn := true, isCameraOn := true }

/-- peersRef.current.has(userId). -/
def hasPeer (peers : List (String × PeerConn)) (userId : String) : Bool :=
  peers.any (fun p => p.1 == userId)

/-- peersRef.current.get(userId). -/
def getPeer (peers : List (String × PeerConn)) (userId : String) :
    Option PeerConn :=
  (peers.find? (fun p => p.1 == userId)).map (fun p => p.2)

/-- peersRef.current.set(userId, pc): ordered-map insertion, overwriting in
place when the key is present. -/
def setPeer (peers : List (String × PeerConn)) (userId : String)
    (pc : PeerConn) : List (String × PeerConn) :=
  if hasPeer peers userId then
    peers.map (fun p => if p.1 == userId then (p.1, pc) else p)
  else
    peers ++ [(userId, pc)]

/-- Mutation of the connection object stored under a key (the source
mutates the RTCPeerConnection held in the Map in place). -/
def updatePeer (peers : List (String × PeerConn)) (userId : String)
    (f : PeerConn → PeerConn) : List (String × PeerConn) :=
  peers.map (fun p => if p.1 == userId then (p.1, f p.2) else p)

/-- peersRef.current.delete(userId). -/
def deletePeer (peers : List (String × PeerConn)) (userId : String) :
    List (String × PeerConn) :=
  peers.filter (fun p => p.1 != userId)

/-- pc.setLocalDescription(d). -/
def setLocalFn (d : SessionDesc) : PeerConn → PeerConn :=
  fun q => { q with localDesc := some d }

/-- pc.setRemoteDescription(d). -/
def setRemoteFn (d : SessionDesc) : PeerConn → PeerConn :=
  fun q => { q with remoteDesc := some d }

/-- pc.addIceCandidate(c). -/
def addCandidateFn (c : Nat) : PeerConn → PeerConn :=
  fun q => { q with remoteCandidates := q.remoteCandidates ++ [c] }

/-- pc.close(). -/
def closeFn : PeerConn → PeerConn := fun q => { q with closed := true }

/-- createPeerConnection(userId, userName, isInitiator, stream): returns
early if the registry already holds the id; otherwise builds the
connection, registers it, adds the local tracks, and on the initiator path
creates an offer, applies it locally and emits it, catching any failure of
that block and logging it. -/
def createPeerConnection (roomId userId userName : String)
    (isInitiator : Bool) (stream : MediaStream) (env : Env)
    (s : RTCState) : HResult :=
  if hasPeer s.peers userId then
    { state := s, out := [], threw := false }
  else
    let s1 : RTCState :=
      { s with peers := setPeer s.peers userId (newPeerConn stream) }
    if isInitiator then
      if env.createOfferOk then
        let offerDesc : SessionDesc :=
          { typ := SDPType.offerSDP, payload := env.offerPayload }
        if env.setLocalOk then
          let s2 : RTCState :=
            { s1 with peers := updatePeer s1.peers userId (setLocalFn offerDesc) }
          { state := s2,
            out := [OutEvent.offerEv roomId userId offerDesc userName],
            threw := false }
        else
          { state := s1, out := [OutEvent.logEv "Error creating offer:"],
            threw := false }
      else
        { state := s1, out := [OutEvent.logEv "Error creating offer:"],
          threw := false }
    else
      { state := s1, out := [], threw := false }

/-- replaceTrack(newTrack) on one sender list: RTCPeerConnection.getSenders
followed by find on the track kind and replaceTrack, so the first sender
whose track kind equals the kind of the new track is swapped in place. -/
def replaceFirstOfKind (k : String) (t : Track) : List Track → List Track
  | [] => []
  | x :: xs => if x.kind == k then t :: xs else x :: replaceFirstOfKind k t xs

/-- replaceTrack(newTrack): iterates every registered connection and swaps
the matching sender in place; nothing is emitted and no connection is
closed or recreated. -/
def replaceTrack (newTrack : Track) (s : RTCState) : HResult :=
  { state := { s with peers := s.peers.map (fun p =>
      (p.1, { p.2 with senders :=
        replaceFirstOfKind newTrack.kind newTrack p.2.senders })) },
    out := [], threw := false }

/-- admitUser(userId): emits admit-user and filters the pending requests. -/
def admitUser (roomId userId : String) (s : RTCState) : HResult :=
  { state := { s with pendingRequests :=
      s.pendingRequests.filter (fun r => r.userId != userId) },
    out := [OutEvent.admitUserEv userId roomId], threw := false }

/-- rejectUser(userId): emits reject-user and filters the pending
requests. -/
def rejectUser (roomId userId : String) (s : RTCState) : HResult :=
  { state := { s with pendingRequests :=
      s.pendingRequests.filter (fun r => r.userId != userId) },
    out := [OutEvent.rejectUserEv userId roomId], threw := false }

/-- Handler for the join-request event: appends the request and plays the
notification sound. -/
def handleJoinRequest (data : JoinReq) (s : RTCState) : HResult :=
  { state := { s with pendingRequests := s.pendingRequests ++ [data] },
    out := [OutEvent.soundEv], threw := false }

/-- Handler for the user-joined event: logs, plays the sound, appends a
roster entry when the id is new, then calls createPeerConnection as
initiator with the local stream. -/
def handleUserJoined (roomId : String) (localStream : MediaStream)
    (env : Env) (data : JoinReq) (s : RTCState) : HResult :=
  let ps : List Participant :=
    if s.participants.any (fun p => p.id == data.userId) then s.participants
    else s.participants ++ [freshParticipant data]
  let r := createPeerConnection roomId data.userId data.userName true
    localStream env { s with participants := ps }
  { state := r.state,
    out := [OutEvent.logEv "User joined:", OutEvent.soundEv] ++ r.out,
    threw := r.threw }

/-- Handler for the offer event: logs, ensures the roster entry for the
sender exists, creates the connection as non-initiator when absent, then
applies the remote description, creates an answer, applies it locally and
emits it back; none of these last steps is wrapped in a try block, so a
failing step escapes the handler uncaught. -/
def handleOffer (roomId : String) (localStream : MediaStream) (env : Env)
    (fromId : String) (offerDesc : SessionDesc) (senderName : String)
    (s : RTCState) : HResult :=
  let out0 : List OutEvent := [OutEvent.logEv "Received offer from:"]
  let ps : List Participant :=
    if s.participants.any (fun p => p.id == fromId) then s.participants
    else s.participants ++ [freshParticipant { userId := fromId, userName := senderName }]
  let s1 : RTCState := { s with participants := ps }
  let r :=
    if (getPeer s1.peers fromId).isSome then
      { state := s1, out := [], threw := false }
    else
      createPeerConnection roomId fromId senderName false localStream env s1
  let s2 := r.state
  match getPeer s2.peers fromId with
  | none => { state := s2, out := out0 ++ r.out, threw := false }
  | some _ =>
    if env.setRemoteOk then
      let s3 : RTCState :=
        { s2 with peers := updatePeer s2.peers fromId (setRemoteFn offerDesc) }
      if env.createAnswerOk then
        let ans : SessionDesc :=
          { typ := SDPType.answerSDP, payload := env.answerPayload }
        if env.setLocalOk then
          let s4 : RTCState :=
            { s3 with peers := updatePeer s3.peers fromId (setLocalFn ans) }
          { state := s4,
            out := out0 ++ r.out ++ [OutEvent.answerEv roomId fromId ans],
            threw := false }
        else
          { state := s3, out := out0 ++ r.out, threw := true }
      else
        { state := s3, out := out0 ++ r.out, threw := true }
    else
      { state := s2, out := out0 ++ r.out, threw := true }

/-- Handler for the answer event: applies the answer as the remote
description when a connection for the sender exists; the application is
not wrapped in a try block. -/
def handleAnswer (env : Env) (fromId : String) (ansDesc : SessionDesc)
    (s : RTCState) : HResult :=
  match getPeer s.peers fromId with
  | none => { state := s, out := [], threw := false }
  | some _ =>
    if env.setRemoteOk then
      { state := { s with peers := updatePeer s.peers fromId (setRemoteFn ansDesc) },
        out := [], threw := false }
    else
      { state := s, out := [], threw := true }

/-- Handler for the ice-candidate event: when a connection for the sender
exists, addIceCandidate is attempted inside a try block whose catch logs;
when no connection exists, the handler does nothing at all. -/
def handleIceCandidate (env : Env) (fromId : String) (candidate : Nat)
    (s : RTCState) : HResult :=
  match getPeer s.peers fromId with
  | none => { state := s, out := [], threw := false }
  | some _ =>
    if env.addIceOk then
      { state := { s with peers := updatePeer s.peers fromId (addCandidateFn candidate) },
        out := [], threw := false }
    else
      { state := s, out := [OutEvent.logEv "Error adding ice candidate"],
        threw := false }

/-- Handler for the user-left event: closes and deletes the connection when
present, and filters the roster. -/
def handleUserLeft (data : JoinReq) (s : RTCState) : HResult :=
  let peers1 :=
    match getPeer s.peers data.userId with
    | some _ => deletePeer (updatePeer s.peers data.userId closeFn) data.userId
    | none => s.peers
  let parts1 := s.participants.filter (fun p => p.id != data.userId)
  { state := { s with peers := peers1, participants := parts1 },
    out := [], threw := false }

/-- The deduplication inside the existing-users handler: users.filter on
the condition that the index of the entry equals the first index holding
the same userId. -/
def existingUsersDedup (users : List JoinReq) : List JoinReq :=
  (users.enum.filter (fun p =>
    users.findIdx (fun u => u.userId == p.2.userId) == p.1)).map
    (fun p => p.2)

/-- Handler for the existing-users event: replaces the roster with the
deduplicated list mapped to fresh participant records and sets the status
to joined. -/
def handleExistingUsers (users : List JoinReq) (s : RTCState) : HResult :=
  { state := { s with
      participants := (existingUsersDedup users).map freshParticipant,
      connectionStatus := ConnStatus.joined },
    out := [], threw := false }

/-! ### Event sequences and classifiers -/

/-- The inbound events that create PeerLinks: user-joined and offer. -/
inductive MeshEvent where
  | joined (data : JoinReq)
  | offerMsg (fromId : String) (desc : SessionDesc) (senderName : String)

/-- The remote participant id named by the event. -/
def meshEventId : MeshEvent → String
  | MeshEvent.joined d => d.userId
  | MeshEvent.offerMsg f _ _ => f

/-- One delivery step of the signaling loop restricted to user-joined and
offer events, keeping only the resulting state. -/
def meshStep (roomId : String) (localStream : MediaStream) (env : Env)
    (s : RTCState) : MeshEvent → RTCState
  | MeshEvent.joined d => (handleUserJoined roomId localStream env d s).state
  | MeshEvent.offerMsg f d n =>
    (handleOffer roomId localStream env f d n s).state

/-- Sequential delivery of a list of user-joined and offer events. -/
def runMesh (roomId : String) (localStream : MediaStream) (env : Env) :
    List MeshEvent → RTCState → RTCState
  | [], s => s
  | e :: es, s =>
    runMesh roomId localStream env es (meshStep roomId localStream env s e)

/-- Recognizer for emitted offer messages. -/
def isOfferEv : OutEvent → Bool
  | OutEvent.offerEv _ _ _ _ => true
  | _ => false

/-- Recognizer for emitted answer messages. -/
def isAnswerEv : OutEvent → Bool
  | OutEvent.answerEv _ _ _ => true
  | _ => false

/-- Generalization of the existing-users deduplication used for its
induction: the extra predicate g records which elements of a consumed
prefix would already have claimed an id. -/
def dedupFirstAux (g : JoinReq → Bool) (l : List JoinReq) : List JoinReq :=
  (l.enum.filter (fun p => g p.2 &&
    (l.findIdx (fun u => u.userId == p.2.userId) == p.1))).map (fun p => p.2)

/-! ### Concrete demonstration objects -/

/-- A concrete local stream with one audio and one video track. -/
def demoStream : MediaStream :=
  { sid := 0,
    tracks := [{ kind := "audio", tid := 0 }, { kind := "video", tid := 1 }] }

/-- An environment in which every WebRTC primitive succeeds. -/
def demoEnv : Env :=
  { createOfferOk := true, setLocalOk := true, setRemoteOk := true,
    createAnswerOk := true, addIceOk := true, offerPayload := 1,
    answerPayload := 2 }

/-- A concrete join payload. -/
def demoJoinAnn : JoinReq := { userId := "u1", userName := "Ann" }

/-- The state after user u1 joined from the initial state. -/
def demoStateWithU1 : RTCState :=
  (handleUserJoined "room1" demoStream demoEnv demoJoinAnn initState).state

/-- The state after u1 joined and then left again. -/
def demoStateAfterLeft : RTCState :=
  (handleUserLeft demoJoinAnn demoStateWithU1).state

/-- The state after a join-request from u9 arrived. -/
def demoStatePending : RTCState :=
  (handleJoinRequest { userId := "u9", userName := "Pat" } initState).state

/-- An environment in which setRemoteDescription fails. -/
def demoEnvFailRemote : Env :=
  { createOfferOk := true, setLocalOk := true, setRemoteOk := false,
    createAnswerOk := true, addIceOk := true, offerPayload := 1,
    answerPayload := 2 }

/-- An environment in which addIceCandidate fails. -/
def demoEnvFailIce : Env :=
  { createOfferOk := true, setLocalOk := true, setRemoteOk := true,
    createAnswerOk := true, addIceOk := false, offerPayload := 1,
    answerPayload := 2 }

/-! ### Registry lemmas -/

/-- The keys of the peer registry. -/
def peerIds (s : RTCState) : List String := s.peers.map Prod.fst

theorem getPeer_isSome_eq_hasPeer (ps : List (String × PeerConn))
    (userId : String) : (getPeer ps userId).isSome = hasPeer ps userId := by
  unfold getPeer hasPeer
  induction ps with
  | nil => rfl
  | cons p ps ih =>
    rw [List.any_cons]
    cases hh : (p.1 == userId)
    · simpa [List.find?_cons, hh] using ih
    · simp [List.find?_cons, hh]

theorem hasPeer_iff_mem (ps : List (String × PeerConn)) (userId : String) :
    hasPeer ps userId = true ↔ userId ∈ ps.map Prod.fst := by
  simp [hasPeer, List.any_eq_true, List.mem_map, beq_iff_eq]

theorem getPeer_eq_none_of_hasPeer_false (ps : List (String × PeerConn))
    (userId : String) (h : hasPeer ps userId = false) :
    getPeer ps userId = none := by
  have h2 := getPeer_isSome_eq_hasPeer ps userId
  rw [h] at h2
  exact Option.not_isSome_iff_eq_none.mp (by simp [h2])

theorem keys_updatePeer (ps : List (String × PeerConn)) (userId : String)
    (f : PeerConn → PeerConn) :
    (updatePeer ps userId f).map Prod.fst = ps.map Prod.fst := by
  unfold updatePeer
  rw [List.map_map]
  apply List.map_congr_left
  intro p _
  simp only [Function.comp_apply]
  split <;> rfl

theorem keys_setPeer_of_absent (ps : List (String × PeerConn))
    (userId : String) (pc : PeerConn) (h : hasPeer ps userId = false) :
    (setPeer ps userId pc).map Prod.fst = ps.map Prod.fst ++ [userId] := by
  simp [setPeer, h]

theorem find?_updatePeer (ps : List (String × PeerConn)) (userId : String)
    (f : PeerConn → PeerConn) :
    (updatePeer ps userId f).find? (fun p => p.1 == userId) =
      (ps.find? (fun p => p.1 == userId)).map (fun p => (p.1, f p.2)) := by
  induction ps with
  | nil => rfl
  | cons p ps ih =>
    rw [updatePeer, List.map_cons, List.find?_cons, List.find?_cons]
    by_cases hh : p.1 = userId
    · have hif : (if (p.1 == userId) = true then (p.1, f p.2) else p) =
          (p.1, f p.2) := by simp [hh]
      rw [hif]
      have hsc1 : ((p.1, f p.2).1 == userId) = true := by simp [hh]
      rw [hsc1]
      rfl
    · have hif : (if (p.1 == userId) = true then (p.1, f p.2) else p) = p := by
        simp [hh]
      rw [hif]
      have hsc1 : (p.1 == userId) = false := by simp [hh]
      rw [hsc1]
      exact ih

theorem getPeer_updatePeer_self (ps : List (String × PeerConn))
    (userId : String) (f : PeerConn → PeerConn) (pc : PeerConn)
    (h : getPeer ps userId = some pc) :
    getPeer (updatePeer ps userId f) userId = some (f pc) := by
  unfold getPeer at h ⊢
  rw [find?_updatePeer]
  cases hf : ps.find? (fun p => p.1 == userId) with
  | none => rw [hf] at h; simp at h
  | some q =>
    rw [hf] at h
    simp at h
    simp [hf, h]

theorem getPeer_append_single (ps : List (String × PeerConn))
    (userId : String) (pc : PeerConn) (h : hasPeer ps userId = false) :
    getPeer (ps ++ [(userId, pc)]) userId = some pc := by
  induction ps with
  | nil => simp [getPeer, List.find?_cons]
  | cons p ps ih =>
    simp only [hasPeer, List.any_cons, Bool.or_eq_false_iff] at h
    obtain ⟨h1, h2⟩ := h
    rw [List.cons_append]
    simp only [getPeer, List.find?_cons, h1]
    exact ih (by simpa [hasPeer] using h2)

theorem getPeer_setPeer_absent (ps : List (String × PeerConn))
    (userId : String) (pc : PeerConn) (h : hasPeer ps userId = false) :
    getPeer (setPeer ps userId pc) userId = some pc := by
  rw [setPeer, if_neg (by simp [h])]
  exact getPeer_append_single ps userId pc h

theorem getPeer_deletePeer_self (ps : List (String × PeerConn))
    (userId : String) : getPeer (deletePeer ps userId) userId = none := by
  unfold deletePeer
  induction ps with
  | nil => rfl
  | cons p ps ih =>
    rw [List.filter_cons]
    cases hh : (p.1 == userId)
    · have hb : (p.1 != userId) = true := by simp [bne, hh]
      rw [if_pos hb]
      simp only [getPeer, List.find?_cons, hh]
      exact ih
    · have hb : ¬(p.1 != userId) = true := by simp [bne, hh]
      rw [if_neg hb]
      exact ih

/-! ### createPeerConnection lemmas -/

theorem createPeerConnection_existing (roomId userId userName : String)
    (isInitiator : Bool) (stream : MediaStream) (env : Env) (s : RTCState)
    (h : hasPeer s.peers userId = true) :
    createPeerConnection roomId userId userName isInitiator stream env s =
      { state := s, out := [], threw := false } := by
  simp [createPeerConnection, h]

theorem createPeerConnection_responder (roomId userId userName : String)
    (stream : MediaStream) (env : Env) (s : RTCState)
    (h : hasPeer s.peers userId = false) :
    createPeerConnection roomId userId userName false stream env s =
      { state := { s with peers := s.peers ++ [(userId, newPeerConn stream)] },
        out := [], threw := false } := by
  simp [createPeerConnection, h, setPeer]

theorem createPeerConnection_out_not_initiator (roomId userId userName : String)
    (stream : MediaStream) (env : Env) (s : RTCState) :
    (createPeerConnection roomId userId userName false stream env s).out = [] := by
  cases h : hasPeer s.peers userId <;> simp [createPeerConnection, h, setPeer]

theorem createPeerConnection_keys (roomId userId userName : String)
    (isInitiator : Bool) (stream : MediaStream) (env : Env) (s : RTCState) :
    (createPeerConnection roomId userId userName isInitiator stream env
        s).state.peers.map Prod.fst =
      if hasPeer s.peers userId then s.peers.map Prod.fst
      else s.peers.map Prod.fst ++ [userId] := by
  cases h : hasPeer s.peers userId
  · cases isInitiator <;> cases hco : env.createOfferOk <;>
      cases hsl : env.setLocalOk <;>
      simp [createPeerConnection, h, hco, hsl, keys_updatePeer,
        keys_setPeer_of_absent s.peers userId (newPeerConn stream) h]
  · simp [createPeerConnection, h]

/-! ### Sequences of user-joined and offer events -/

theorem handleUserJoined_keys (roomId : String) (stream : MediaStream)
    (env : Env) (data : JoinReq) (s : RTCState) :
    (handleUserJoined roomId stream env data s).state.peers.map Prod.fst =
      if hasPeer s.peers data.userId then s.peers.map Prod.fst
      else s.peers.map Prod.fst ++ [data.userId] := by
  simp only [handleUserJoined]
  rw [createPeerConnection_keys]

theorem handleOffer_keys (roomId : String) (stream : MediaStream) (env : Env)
    (fromId : String) (d : SessionDesc) (n : String) (s : RTCState) :
    (handleOffer roomId stream env fromId d n s).state.peers.map Prod.fst =
      if hasPeer s.peers fromId then s.peers.map Prod.fst
      else s.peers.map Prod.fst ++ [fromId] := by
  cases hp : hasPeer s.peers fromId
  · have hg : getPeer s.peers fromId = none :=
      getPeer_eq_none_of_hasPeer_false s.peers fromId hp
    cases hsr : env.setRemoteOk <;> cases hca : env.createAnswerOk <;>
      cases hsl : env.setLocalOk <;>
      simp [handleOffer, hg, hp, hsr, hca, hsl,
        createPeerConnection_responder, keys_updatePeer,
        getPeer_append_single s.peers fromId (newPeerConn stream) hp]
  · obtain ⟨q, hq⟩ : ∃ q, getPeer s.peers fromId = some q := by
      have h2 := getPeer_isSome_eq_hasPeer s.peers fromId
      rw [hp] at h2
      exact Option.isSome_iff_exists.mp h2
    cases hsr : env.setRemoteOk <;> cases hca : env.createAnswerOk <;>
      cases hsl : env.setLocalOk <;>
      simp [handleOffer, hq, hp, hsr, hca, hsl, keys_updatePeer]

theorem meshStep_keys (roomId : String) (stream : MediaStream) (env : Env)
    (s : RTCState) (e : MeshEvent) :
    (meshStep roomId stream env s e).peers.map Prod.fst =
      if hasPeer s.peers (meshEventId e) then s.peers.map Prod.fst
      else s.peers.map Prod.fst ++ [meshEventId e] := by
  cases e with
  | joined d => exact handleUserJoined_keys roomId stream env d s
  | offerMsg f d n => exact handleOffer_keys roomId stream env f d n s

theorem runMesh_mem (roomId : String) (stream : MediaStream) (env : Env)
    (es : List MeshEvent) (s : RTCState) (id : String) :
    id ∈ (runMesh roomId stream env es s).peers.map Prod.fst ↔
      id ∈ s.peers.map Prod.fst ∨ id ∈ es.map meshEventId := by
  induction es generalizing s with
  | nil => simp [runMesh]
  | cons e es ih =>
    rw [runMesh, ih]
    cases hp : hasPeer s.peers (meshEventId e)
    · rw [meshStep_keys]
      simp only [hp, Bool.false_eq_true, if_false, List.mem_append,
        List.map_cons, List.mem_cons, List.mem_singleton]
      tauto
    · have hmem := (hasPeer_iff_mem s.peers (meshEventId e)).mp hp
      rw [meshStep_keys]
      simp only [hp, if_true, List.map_cons, List.mem_cons]
      constructor
      · tauto
      · rintro (h | rfl | h) <;> tauto

theorem runMesh_nodup (roomId : String) (stream : MediaStream) (env : Env)
    (es : List MeshEvent) (s : RTCState)
    (h : (s.peers.map Prod.fst).Nodup) :
    ((runMesh roomId stream env es s).peers.map Prod.fst).Nodup := by
  induction es generalizing s with
  | nil => simpa [runMesh] using h
  | cons e es ih =>
    rw [runMesh]
    apply ih
    cases hp : hasPeer s.peers (meshEventId e)
    · have hnm : meshEventId e ∉ s.peers.map Prod.fst := by
        intro hc
        rw [← hasPeer_iff_mem] at hc
        rw [hp] at hc
        exact Bool.false_ne_true hc
      have hnm2 : ∀ x : PeerConn, (meshEventId e, x) ∉ s.peers := by
        intro x hx
        exact hnm (List.mem_map_of_mem Prod.fst hx)
      rw [meshStep_keys]
      simp only [hp, Bool.false_eq_true, if_false]
      simpa [List.nodup_append] using ⟨h, hnm2⟩
    · rw [meshStep_keys]
      simpa [hp] using h

/-! ### Claim theorems -/

/-- Claim C1: at most one PeerLink per remote id — for every sequence of
user-joined and offer events from the initial state the registry holds
exactly one PeerLink per distinct id named by the events, and a creation
request (createPeerConnection) for an id already registered is a no-op
that changes nothing and emits nothing. -/
theorem one_peerLink_per_id_and_creation_idempotent :
    (∀ (roomId : String) (stream : MediaStream) (env : Env)
        (es : List MeshEvent),
        ((runMesh roomId stream env es initState).peers.map Prod.fst).Nodup ∧
        ∀ id : String,
          id ∈ (runMesh roomId stream env es initState).peers.map Prod.fst ↔
            id ∈ es.map meshEventId) ∧
    ∀ (roomId userId userName : String) (isInitiator : Bool)
      (stream : MediaStream) (env : Env) (s : RTCState),
      hasPeer s.peers userId = true →
      createPeerConnection roomId userId userName isInitiator stream env s =
        { state := s, out := [], threw := false } := by
  constructor
  · intro roomId stream env es
    constructor
    · exact runMesh_nodup roomId stream env es initState (by simp [initState])
    · intro id
      rw [runMesh_mem]
      simp [initState]
  · intro roomId userId userName isInitiator stream env s h
    exact createPeerConnection_existing roomId userId userName isInitiator
      stream env s h

/-- Witness for C1 at a concrete registry already holding u1. -/
theorem one_peerLink_per_id_and_creation_idempotent_witness :
    createPeerConnection "room1" "u1" "Bea" true demoStream demoEnv
        demoStateWithU1 =
      { state := demoStateWithU1, out := [], threw := false } :=
  one_peerLink_per_id_and_creation_idempotent.2 "room1" "u1" "Bea" true
    demoStream demoEnv demoStateWithU1 (by decide)

/-! ### Offer authorship -/

theorem createPeerConnection_initiator_success (roomId userId userName :
    String) (stream : MediaStream) (env : Env) (s : RTCState)
    (h : hasPeer s.peers userId = false) (hco : env.createOfferOk = true)
    (hsl : env.setLocalOk = true) :
    createPeerConnection roomId userId userName true stream env s =
      { state := { s with peers := updatePeer (s.peers ++ [(userId, newPeerConn stream)]) userId (setLocalFn { typ := SDPType.offerSDP, payload := env.offerPayload }) },
        out := [OutEvent.offerEv roomId userId
          { typ := SDPType.offerSDP, payload := env.offerPayload } userName],
        threw := false } := by
  simp [createPeerConnection, h, hco, hsl, setPeer]

/-- Claim C2: a newcomer never emits an offer proactively — the
existing-users handler emits nothing at all, the offer handler never emits
an offer (it only answers), and only the user-joined handler of an
already-present participant emits exactly one offer, addressed to the
newly joined id. -/
theorem newcomer_never_initiates_offer :
    (∀ (users : List JoinReq) (s : RTCState),
        (handleExistingUsers users s).out = []) ∧
    (∀ (roomId : String) (stream : MediaStream) (env : Env)
        (fromId : String) (d : SessionDesc) (n : String) (s : RTCState),
        (handleOffer roomId stream env fromId d n s).out.filter isOfferEv =
          []) ∧
    ∀ (roomId : String) (stream : MediaStream) (env : Env) (data : JoinReq)
      (s : RTCState),
      env.createOfferOk = true → env.setLocalOk = true →
      hasPeer s.peers data.userId = false →
      (handleUserJoined roomId stream env data s).out.filter isOfferEv =
        [OutEvent.offerEv roomId data.userId
          { typ := SDPType.offerSDP, payload := env.offerPayload }
          data.userName] := by
  refine ⟨fun users s => rfl, ?_, ?_⟩
  · intro roomId stream env fromId d n s
    cases hp : hasPeer s.peers fromId
    · have hg : getPeer s.peers fromId = none :=
        getPeer_eq_none_of_hasPeer_false s.peers fromId hp
      cases hsr : env.setRemoteOk <;> cases hca : env.createAnswerOk <;>
        cases hsl : env.setLocalOk <;>
        simp [handleOffer, hg, hp, hsr, hca, hsl,
          createPeerConnection_responder, isOfferEv,
          getPeer_append_single s.peers fromId (newPeerConn stream) hp]
    · obtain ⟨q, hq⟩ : ∃ q, getPeer s.peers fromId = some q := by
        have h2 := getPeer_isSome_eq_hasPeer s.peers fromId
        rw [hp] at h2
        exact Option.isSome_iff_exists.mp h2
      cases hsr : env.setRemoteOk <;> cases hca : env.createAnswerOk <;>
        cases hsl : env.setLocalOk <;>
        simp [handleOffer, hq, hp, hsr, hca, hsl, isOfferEv]
  · intro roomId stream env data s hco hsl hp
    simp only [handleUserJoined]
    rw [createPeerConnection_initiator_success roomId data.userId
      data.userName stream env
      { s with participants :=
          if s.participants.any (fun p => p.id == data.userId) then
            s.participants
          else s.participants ++ [freshParticipant data] }
      hp hco hsl]
    simp [isOfferEv]

/-- Witness for C2: user u1 joining a fresh room produces exactly one
emitted offer, addressed to u1. -/
theorem newcomer_never_initiates_offer_witness :
    (handleUserJoined "room1" demoStream demoEnv demoJoinAnn
        initState).out.filter isOfferEv =
      [OutEvent.offerEv "room1" "u1"
        { typ := SDPType.offerSDP, payload := 1 } "Ann"] :=
  newcomer_never_initiates_offer.2.2 "room1" demoStream demoEnv demoJoinAnn
    initState (by decide) (by decide) (by decide)

theorem handleOffer_responder_success (roomId : String)
    (stream : MediaStream) (env : Env) (fromId : String) (d : SessionDesc)
    (n : String) (s : RTCState) (hsr : env.setRemoteOk = true)
    (hca : env.createAnswerOk = true) (hsl : env.setLocalOk = true)
    (hp : hasPeer s.peers fromId = false) :
    handleOffer roomId stream env fromId d n s =
      { state := { s with
          participants :=
            if s.participants.any (fun p => p.id == fromId) then
              s.participants
            else s.participants ++
              [freshParticipant { userId := fromId, userName := n }],
          peers := updatePeer (updatePeer (s.peers ++ [(fromId, newPeerConn stream)]) fromId (setRemoteFn d)) fromId (setLocalFn { typ := SDPType.answerSDP, payload := env.answerPayload }) },
        out := [OutEvent.logEv "Received offer from:",
          OutEvent.answerEv roomId fromId
            { typ := SDPType.answerSDP, payload := env.answerPayload }],
        threw := false } := by
  have hg : getPeer s.peers fromId = none :=
    getPeer_eq_none_of_hasPeer_false s.peers fromId hp
  simp [handleOffer, hg, hp, hsr, hca, hsl, createPeerConnection_responder,
    getPeer_append_single s.peers fromId (newPeerConn stream) hp]

/-- Claim C3: on a remote offer for an id with no PeerLink, the handler
creates the link as non-initiator, stores the incoming offer as the remote
description, generates and locally applies an answer, emits exactly one
answer back to the sender and no offer, does not throw, and ensures the
roster entry for the sender exists. -/
theorem offer_unknown_id_answers_as_responder (roomId : String)
    (stream : MediaStream) (env : Env) (fromId : String) (d : SessionDesc)
    (n : String) (s : RTCState) (hsr : env.setRemoteOk = true)
    (hca : env.createAnswerOk = true) (hsl : env.setLocalOk = true)
    (hp : hasPeer s.peers fromId = false) :
    getPeer (handleOffer roomId stream env fromId d n s).state.peers
        fromId =
      some { senders := stream.tracks,
             localDesc := some { typ := SDPType.answerSDP, payload := env.answerPayload },
             remoteDesc := some d, remoteCandidates := [], closed := false } ∧
    (handleOffer roomId stream env fromId d n s).out.filter isAnswerEv =
      [OutEvent.answerEv roomId fromId
        { typ := SDPType.answerSDP, payload := env.answerPayload }] ∧
    (handleOffer roomId stream env fromId d n s).out.filter isOfferEv =
      [] ∧
    (handleOffer roomId stream env fromId d n s).threw = false ∧
    (handleOffer roomId stream env fromId d n s).state.participants.any
      (fun p => p.id == fromId) = true := by
  rw [handleOffer_responder_success roomId stream env fromId d n s hsr hca
    hsl hp]
  refine ⟨?_, by simp [isAnswerEv], by simp [isOfferEv], rfl, ?_⟩
  · have h1 := getPeer_append_single s.peers fromId (newPeerConn stream) hp
    have h2 := getPeer_updatePeer_self _ fromId (setRemoteFn d) _ h1
    have h3 := getPeer_updatePeer_self _ fromId
      (setLocalFn { typ := SDPType.answerSDP, payload := env.answerPayload })
      _ h2
    simpa [newPeerConn, setRemoteFn, setLocalFn] using h3
  · cases hpar : s.participants.any (fun p => p.id == fromId) <;>
      simp [hpar, List.any_append, freshParticipant]

/-- Witness for C3: a concrete offer from unknown user u2 leaves a
non-initiator PeerLink carrying the offer as remote description and the
generated answer as local description. -/
theorem offer_unknown_id_answers_as_responder_witness :
    getPeer (handleOffer "room1" demoStream demoEnv "u2"
        { typ := SDPType.offerSDP, payload := 9 } "Bea"
        initState).state.peers "u2" =
      some { senders := demoStream.tracks,
             localDesc := some { typ := SDPType.answerSDP, payload := 2 },
             remoteDesc := some { typ := SDPType.offerSDP, payload := 9 },
             remoteCandidates := [], closed := false } :=
  (offer_unknown_id_answers_as_responder "room1" demoStream demoEnv "u2"
    { typ := SDPType.offerSDP, payload := 9 } "Bea" initState (by decide)
    (by decide) (by decide) (by decide)).1

/-! ### Departure and late signaling -/

/-- Counterexample to C4 as stated: after user-left has removed u1, a
subsequent offer from u1 is not ignored — it re-creates a PeerLink and a
roster entry for u1 and answers it. -/
theorem removed_id_offer_reestablishes_counterexample :
    getPeer demoStateAfterLeft.peers "u1" = none ∧
    hasPeer (handleOffer "room1" demoStream demoEnv "u1"
        { typ := SDPType.offerSDP, payload := 5 } "Ann"
        demoStateAfterLeft).state.peers "u1" = true ∧
    (handleOffer "room1" demoStream demoEnv "u1"
        { typ := SDPType.offerSDP, payload := 5 } "Ann"
        demoStateAfterLeft).state.participants.any
      (fun p => p.id == "u1") = true ∧
    (handleOffer "room1" demoStream demoEnv "u1"
        { typ := SDPType.offerSDP, payload := 5 } "Ann"
        demoStateAfterLeft).out.filter isAnswerEv ≠ [] := by
  decide

/-- Claim C4 (amended): user-left removes the PeerLink and the roster
entry of the departed id, and subsequent answer or ice-candidate events
for an id with no PeerLink are ignored without error and without
re-establishing state; a subsequent offer instead re-establishes the peer
(responder path). -/
theorem userLeft_removes_then_answer_ice_ignored :
    (∀ (data : JoinReq) (s : RTCState),
        getPeer (handleUserLeft data s).state.peers data.userId = none ∧
        (handleUserLeft data s).state.participants.filter
          (fun p => p.id == data.userId) = [] ∧
        (handleUserLeft data s).out = [] ∧
        (handleUserLeft data s).threw = false) ∧
    ∀ (env : Env) (id : String) (d : SessionDesc) (c : Nat) (s : RTCState),
      getPeer s.peers id = none →
      handleAnswer env id d s = { state := s, out := [], threw := false } ∧
      handleIceCandidate env id c s =
        { state := s, out := [], threw := false } := by
  constructor
  · intro data s
    refine ⟨?_, ?_, rfl, rfl⟩
    · cases hg : getPeer s.peers data.userId
      · simp [handleUserLeft, hg]
      · simp [handleUserLeft, hg, getPeer_deletePeer_self]
    · have hps : (handleUserLeft data s).state.participants =
          s.participants.filter (fun p => p.id != data.userId) := by
        cases hg : getPeer s.peers data.userId <;> simp [handleUserLeft, hg]
      rw [hps, List.filter_filter]
      apply List.filter_eq_nil_iff.mpr
      intro a _
      cases hb : (a.id == data.userId) <;> simp [hb, bne]
  · intro env id d c s hg
    constructor
    · simp [handleAnswer, hg]
    · simp [handleIceCandidate, hg]

/-- Witness for C4 (amended) at a state with no PeerLink for u1. -/
theorem userLeft_removes_then_answer_ice_ignored_witness :
    handleAnswer demoEnv "u1" { typ := SDPType.answerSDP, payload := 7 }
        initState = { state := initState, out := [], threw := false } ∧
    handleIceCandidate demoEnv "u1" 3 initState =
      { state := initState, out := [], threw := false } :=
  userLeft_removes_then_answer_ice_ignored.2 demoEnv "u1"
    { typ := SDPType.answerSDP, payload := 7 } 3 initState (by decide)

/-! ### Admission decisions -/

/-- Counterexample to C6 as stated: after the request for u9 has already
been removed, a second reject still emits a reject-user decision event, so
the second call is not a no-op. -/
theorem second_reject_still_emits_counterexample :
    (rejectUser "room1" "u9"
        (rejectUser "room1" "u9" demoStatePending).state).out =
      [OutEvent.rejectUserEv "u9" "room1"] ∧
    (rejectUser "room1" "u9"
        (rejectUser "room1" "u9" demoStatePending).state).out ≠ [] := by
  decide

/-- Claim C6 (amended): admit and reject each remove every matching
pending request and emit their decision event; only the removal is
idempotent — a second call for the same id removes nothing — while the
decision event is emitted unconditionally, also by the second call. -/
theorem admit_reject_remove_and_always_emit :
    ∀ (roomId userId : String) (s : RTCState),
      admitUser roomId userId s =
        { state := { s with pendingRequests :=
            s.pendingRequests.filter (fun r => r.userId != userId) },
          out := [OutEvent.admitUserEv userId roomId], threw := false } ∧
      rejectUser roomId userId s =
        { state := { s with pendingRequests :=
            s.pendingRequests.filter (fun r => r.userId != userId) },
          out := [OutEvent.rejectUserEv userId roomId], threw := false } ∧
      (admitUser roomId userId (admitUser roomId userId s).state).state =
        (admitUser roomId userId s).state ∧
      (rejectUser roomId userId (rejectUser roomId userId s).state).state =
        (rejectUser roomId userId s).state := by
  intro roomId userId s
  have hidem : ∀ l : List JoinReq,
      (l.filter (fun r => r.userId != userId)).filter
          (fun r => r.userId != userId) =
        l.filter (fun r => r.userId != userId) := by
    intro l
    rw [List.filter_filter]
    exact List.filter_congr (fun x _ => Bool.and_self _)
  refine ⟨rfl, rfl, ?_, ?_⟩ <;> simp [admitUser, rejectUser, hidem]

/-! ### Track replacement -/

theorem replaceFirstOfKind_twice (k : String) (b c : Track)
    (hb : b.kind = k) (l : List Track) :
    replaceFirstOfKind k c (replaceFirstOfKind k b l) =
      replaceFirstOfKind k c l := by
  induction l with
  | nil => rfl
  | cons x xs ih =>
    cases hx : (x.kind == k)
    · simp [replaceFirstOfKind, hx, ih]
    · simp [replaceFirstOfKind, hx, hb]

theorem mem_replaceFirstOfKind (k : String) (c : Track)
    (l : List Track) (h : ∃ tr ∈ l, tr.kind = k) :
    c ∈ replaceFirstOfKind k c l := by
  induction l with
  | nil => simp at h
  | cons x xs ih =>
    cases hx : (x.kind == k)
    · simp only [replaceFirstOfKind, hx]
      obtain ⟨tr, htr, hk⟩ := h
      rcases List.mem_cons.mp htr with rfl | hmem
      · rw [hk] at hx
        simp at hx
      · exact List.mem_cons_of_mem x (ih ⟨tr, hmem, hk⟩)
    · simp [replaceFirstOfKind, hx]

/-- Claim C7: replaceTrack visits every PeerLink and swaps in place the
first sender whose kind matches the new track, changing nothing else: no
link is closed or recreated, the roster and pending requests are
untouched, nothing is emitted; swapping a screen track and then a camera
track of the same kind equals swapping the camera track alone, and the
final track is present wherever a sender of that kind existed. -/
theorem replaceTrack_swaps_in_place :
    (∀ (t : Track) (s : RTCState),
        (replaceTrack t s).out = [] ∧ (replaceTrack t s).threw = false ∧
        (replaceTrack t s).state.participants = s.participants ∧
        (replaceTrack t s).state.pendingRequests = s.pendingRequests ∧
        (replaceTrack t s).state.connectionStatus = s.connectionStatus ∧
        (replaceTrack t s).state.peers.map Prod.fst =
          s.peers.map Prod.fst ∧
        (replaceTrack t s).state.peers.map (fun p => p.2.closed) =
          s.peers.map (fun p => p.2.closed) ∧
        (replaceTrack t s).state.peers.map (fun p => p.2.senders) =
          s.peers.map (fun p => replaceFirstOfKind t.kind t p.2.senders)) ∧
    ∀ (screen camera : Track) (s : RTCState),
      screen.kind = camera.kind →
      (replaceTrack camera (replaceTrack screen s).state).state =
        (replaceTrack camera s).state ∧
      ∀ l : List Track, (∃ tr ∈ l, tr.kind = camera.kind) →
        camera ∈ replaceFirstOfKind camera.kind camera l := by
  constructor
  · intro t s
    refine ⟨rfl, rfl, rfl, rfl, rfl, ?_, ?_, ?_⟩ <;>
      simp [replaceTrack, List.map_map, Function.comp]
  · intro screen camera s hk
    constructor
    · simp only [replaceTrack, List.map_map]
      congr 1
      apply List.map_congr_left
      intro p _
      simp only [Function.comp_apply]
      rw [hk, replaceFirstOfKind_twice camera.kind screen camera hk]
    · intro l h
      exact mem_replaceFirstOfKind camera.kind camera l h

/-- Witness for C7: swapping a screen track then a camera track over the
state holding the u1 link equals swapping the camera track alone. -/
theorem replaceTrack_swaps_in_place_witness :
    (replaceTrack { kind := "video", tid := 7 }
        (replaceTrack { kind := "video", tid := 9 }
          demoStateWithU1).state).state =
      (replaceTrack { kind := "video", tid := 7 } demoStateWithU1).state :=
  (replaceTrack_swaps_in_place.2 { kind := "video", tid := 9 }
    { kind := "video", tid := 7 } demoStateWithU1 rfl).1

/-! ### Trickle ICE -/

/-- Counterexample to C8 as stated: a candidate racing ahead of its offer
(no PeerLink for u1 yet) is dropped silently — the handler emits no log
event at all and changes nothing. -/
theorem ice_without_peer_not_logged_counterexample :
    (handleIceCandidate demoEnv "u1" 4 initState).out = [] ∧
    (handleIceCandidate demoEnv "u1" 4 initState).state = initState := by
  decide

/-- Claim C8 (amended): a remote candidate is applied to the matching
PeerLink when and only when one exists; with no PeerLink it is dropped
silently — not logged and not queued, with no state change — and the
handler never fails; a failing application on an existing link is caught
and logged. -/
theorem ice_candidate_applied_iff_peer_present :
    ∀ (env : Env) (id : String) (c : Nat) (s : RTCState),
      (getPeer s.peers id = none →
        handleIceCandidate env id c s =
          { state := s, out := [], threw := false }) ∧
      (∀ pc, getPeer s.peers id = some pc → env.addIceOk = true →
        getPeer (handleIceCandidate env id c s).state.peers id =
          some { pc with remoteCandidates := pc.remoteCandidates ++ [c] }) ∧
      (∀ pc, getPeer s.peers id = some pc → env.addIceOk = false →
        handleIceCandidate env id c s =
          { state := s,
            out := [OutEvent.logEv "Error adding ice candidate"],
            threw := false }) ∧
      (handleIceCandidate env id c s).threw = false := by
  intro env id c s
  refine ⟨?_, ?_, ?_, ?_⟩
  · intro hg
    simp [handleIceCandidate, hg]
  · intro pc hg hok
    have h2 := getPeer_updatePeer_self s.peers id (addCandidateFn c) pc hg
    simp [handleIceCandidate, hg, hok]
    simpa [addCandidateFn] using h2
  · intro pc hg hok
    simp [handleIceCandidate, hg, hok]
  · cases hg : getPeer s.peers id
    · simp [handleIceCandidate, hg]
    · cases hok : env.addIceOk <;> simp [handleIceCandidate, hg, hok]

/-- Witness for C8 (amended): a candidate for the existing u1 link is
appended to its applied remote candidates. -/
theorem ice_candidate_applied_iff_peer_present_witness :
    getPeer (handleIceCandidate demoEnv "u1" 4
        demoStateWithU1).state.peers "u1" =
      some { senders := demoStream.tracks,
             localDesc := some { typ := SDPType.offerSDP, payload := 1 },
             remoteDesc := none, remoteCandidates := [4],
             closed := false } :=
  (ice_candidate_applied_iff_peer_present demoEnv "u1" 4
      demoStateWithU1).2.1
    { senders := demoStream.tracks,
      localDesc := some { typ := SDPType.offerSDP, payload := 1 },
      remoteDesc := none, remoteCandidates := [], closed := false }
    (by decide) (by decide)

/-! ### Error escape behavior -/

/-- Claim C9 evaluated at its failing input: the offer and answer handlers
do not wrap description application in any try block, so a failing
setRemoteDescription escapes them uncaught, while the ice-candidate
handler catches its own failure and only logs. -/
theorem offer_answer_handlers_throw_on_failed_description :
    (handleOffer "room1" demoStream demoEnvFailRemote "u1"
        { typ := SDPType.offerSDP, payload := 5 } "Ann"
        demoStateWithU1).threw = true ∧
    (handleAnswer demoEnvFailRemote "u1"
        { typ := SDPType.answerSDP, payload := 6 }
        demoStateWithU1).threw = true ∧
    (handleIceCandidate demoEnvFailIce "u1" 4 demoStateWithU1).threw =
      false ∧
    (handleIceCandidate demoEnvFailIce "u1" 4 demoStateWithU1).out =
      [OutEvent.logEv "Error adding ice candidate"] := by
  decide

/-! ### Pending join requests -/

/-- Claim C10: every join-request appends a new PendingJoinRequest without
any duplicate check, so duplicate deliveries accumulate; a single admit or
reject call removes every pending entry whose userId matches, leaving no
entry for that id. -/
theorem joinRequest_appends_and_decision_removes_all :
    ∀ (data : JoinReq) (roomId userId : String) (s : RTCState),
      (handleJoinRequest data s).state.pendingRequests =
        s.pendingRequests ++ [data] ∧
      (handleJoinRequest data
          (handleJoinRequest data s).state).state.pendingRequests =
        s.pendingRequests ++ [data, data] ∧
      (admitUser roomId userId s).state.pendingRequests.filter
        (fun r => r.userId == userId) = [] ∧
      (rejectUser roomId userId s).state.pendingRequests.filter
        (fun r => r.userId == userId) = [] := by
  intro data roomId userId s
  have hnone : ∀ l : List JoinReq,
      (l.filter (fun r => r.userId != userId)).filter
          (fun r => r.userId == userId) = [] := by
    intro l
    rw [List.filter_filter]
    apply List.filter_eq_nil_iff.mpr
    intro a _
    cases hb : (a.userId == userId) <;> simp [hb, bne]
  refine ⟨rfl, by simp [handleJoinRequest], ?_, ?_⟩ <;>
    simp [admitUser, rejectUser, hnone]

/-! ### Roster snapshot deduplication -/

theorem succ_beq_succ_eq (a b : Nat) : (a + 1 == b + 1) = (a == b) := by
  cases h : (a == b)
  · simp only [beq_eq_false_iff_ne] at h ⊢
    omega
  · simp only [beq_iff_eq] at h
    subst h
    simp

theorem zero_beq_succ_eq (i : Nat) : ((0 : Nat) == i + 1) = false := by
  cases i <;> rfl

theorem dedupFirstAux_cons (g : JoinReq → Bool) (u : JoinReq)
    (rest : List JoinReq) :
    dedupFirstAux g (u :: rest) =
      (bif g u then [u] else []) ++
        dedupFirstAux (fun v => g v && !(u.userId == v.userId)) rest := by
  unfold dedupFirstAux
  rw [List.enum_cons']
  rw [List.filter_cons]
  have hfind0 : (u :: rest).findIdx (fun w => w.userId == u.userId) = 0 := by
    simp [List.findIdx_cons]
  have htail : List.filter (fun p => g p.2 &&
        ((u :: rest).findIdx (fun w => w.userId == p.2.userId) == p.1))
        (rest.enum.map (Prod.map (· + 1) id)) =
      (List.filter (fun p => (g p.2 && !(u.userId == p.2.userId)) &&
        (rest.findIdx (fun w => w.userId == p.2.userId) == p.1))
        rest.enum).map (Prod.map (· + 1) id) := by
    rw [List.filter_map]
    congr 1
    apply List.filter_congr
    intro x _
    obtain ⟨i, v⟩ := x
    simp only [Function.comp_apply, Prod.map, id_eq]
    rw [List.findIdx_cons]
    cases hbe : (v.userId == u.userId)
    · have hbe2 : (u.userId == v.userId) = false := by
        cases hbe3 : (u.userId == v.userId)
        · rfl
        · simp only [beq_iff_eq] at hbe3
          rw [hbe3] at hbe
          simp at hbe
      simp [hbe2, succ_beq_succ_eq, Bool.and_assoc]
    · have hbe2 : (u.userId == v.userId) = true := by
        simp only [beq_iff_eq] at hbe ⊢
        exact hbe.symm
      simp [hbe2, zero_beq_succ_eq]
  cases hgu : g u <;>
    simp [hgu, hfind0, htail, List.map_map, Function.comp]

theorem bool_and_split {a b : Bool} (h : (a && b) = true) :
    a = true ∧ b = true := by
  simp only [Bool.and_eq_true] at h
  exact h

theorem dedupFirstAux_sub (g : JoinReq → Bool) (l : List JoinReq) :
    ∀ v ∈ dedupFirstAux g l, v ∈ l ∧ g v = true := by
  induction l generalizing g with
  | nil => simp [dedupFirstAux]
  | cons u rest ih =>
    intro v hv
    rw [dedupFirstAux_cons] at hv
    rcases List.mem_append.mp hv with h1 | h2
    · cases hgu : g u
      · rw [hgu] at h1
        simp at h1
      · rw [hgu] at h1
        simp at h1
        subst h1
        exact ⟨List.mem_cons_self _ _, hgu⟩
    · obtain ⟨hmem, hg2⟩ :=
        ih (fun v => g v && !(u.userId == v.userId)) v h2
      exact ⟨List.mem_cons_of_mem u hmem, (bool_and_split hg2).1⟩

theorem dedupFirstAux_first (g : JoinReq → Bool) (l : List JoinReq) :
    ∀ v ∈ dedupFirstAux g l,
      l.find? (fun w => w.userId == v.userId) = some v := by
  induction l generalizing g with
  | nil => simp [dedupFirstAux]
  | cons u rest ih =>
    intro v hv
    rw [dedupFirstAux_cons] at hv
    rcases List.mem_append.mp hv with h1 | h2
    · cases hgu : g u
      · rw [hgu] at h1
        simp at h1
      · rw [hgu] at h1
        simp at h1
        subst h1
        simp [List.find?_cons]
    · have hg2 := (dedupFirstAux_sub
        (fun v => g v && !(u.userId == v.userId)) rest v h2).2
      have hne : (u.userId == v.userId) = false := by
        cases hb : (u.userId == v.userId)
        · rfl
        · rw [hb] at hg2
          simp at hg2
      simp only [List.find?_cons, hne]
      exact ih (fun v => g v && !(u.userId == v.userId)) v h2

theorem dedupFirstAux_ids_nodup (g : JoinReq → Bool) (l : List JoinReq) :
    ((dedupFirstAux g l).map (fun u => u.userId)).Nodup := by
  induction l generalizing g with
  | nil => simp [dedupFirstAux]
  | cons u rest ih =>
    rw [dedupFirstAux_cons]
    cases hgu : g u
    · simpa using ih (fun v => g v && !(u.userId == v.userId))
    · simp only [cond_true, List.singleton_append, List.map_cons,
        List.nodup_cons]
      refine ⟨?_, ih (fun v => g v && !(u.userId == v.userId))⟩
      intro hmem
      obtain ⟨v, hv, hvid⟩ := List.mem_map.mp hmem
      have hg2 := (dedupFirstAux_sub
        (fun v => g v && !(u.userId == v.userId)) rest v hv).2
      have h3 := (bool_and_split hg2).2
      rw [hvid] at h3
      simp at h3

theorem dedupFirstAux_mem_ids (g : JoinReq → Bool) (l : List JoinReq)
    (hg : ∀ v w : JoinReq, v.userId = w.userId → g v = g w) (id : String) :
    id ∈ (dedupFirstAux g l).map (fun u => u.userId) ↔
      ∃ v ∈ l, v.userId = id ∧ g v = true := by
  induction l generalizing g with
  | nil => simp [dedupFirstAux]
  | cons u rest ih =>
    have hg2 : ∀ v w : JoinReq, v.userId = w.userId →
        (g v && !(u.userId == v.userId)) =
          (g w && !(u.userId == w.userId)) := by
      intro v w h
      rw [hg v w h, h]
    rw [dedupFirstAux_cons]
    cases hgu : g u
    · simp only [cond_false, List.nil_append]
      rw [ih (fun v => g v && !(u.userId == v.userId)) hg2]
      constructor
      · rintro ⟨v, hv, hvid, hgv⟩
        exact ⟨v, List.mem_cons_of_mem u hv, hvid, (bool_and_split hgv).1⟩
      · rintro ⟨v, hv, hvid, hgv⟩
        rcases List.mem_cons.mp hv with rfl | hvr
        · rw [hgv] at hgu
          exact absurd hgu (by simp)
        · refine ⟨v, hvr, hvid, ?_⟩
          rw [Bool.and_eq_true]
          refine ⟨hgv, ?_⟩
          cases hb : (u.userId == v.userId)
          · simp
          · have hb2 : u.userId = v.userId := by simpa using hb
            rw [hg v u hb2.symm] at hgv
            rw [hgv] at hgu
            simp at hgu
    · simp only [cond_true, List.singleton_append, List.map_cons,
        List.mem_cons]
      rw [ih (fun v => g v && !(u.userId == v.userId)) hg2]
      constructor
      · rintro (rfl | ⟨v, hv, hvid, hgv⟩)
        · exact ⟨u, Or.inl rfl, rfl, hgu⟩
        · exact ⟨v, Or.inr hv, hvid, (bool_and_split hgv).1⟩
      · rintro ⟨v, hv, hvid, hgv⟩
        rcases hv with rfl | hvr
        · exact Or.inl hvid.symm
        · by_cases hb : u.userId = id
          · exact Or.inl hb.symm
          · refine Or.inr ⟨v, hvr, hvid, ?_⟩
            rw [Bool.and_eq_true]
            refine ⟨hgv, ?_⟩
            cases hbb : (u.userId == v.userId)
            · simp
            · have hbc : u.userId = v.userId := by simpa using hbb
              rw [hbc, hvid] at hb
              exact absurd rfl hb

theorem existingUsersDedup_eq_aux (users : List JoinReq) :
    existingUsersDedup users = dedupFirstAux (fun _ => true) users := by
  unfold existingUsersDedup dedupFirstAux
  congr 1

/-- Counterexample to C5 as stated: when id u1 is delivered twice with
names Al then Bob, the roster keeps the first occurrence name Al, not the
name of the last occurrence. -/
theorem existingUsers_keeps_first_name_counterexample :
    (handleExistingUsers [{ userId := "u1", userName := "Al" },
        { userId := "u1", userName := "Bob" }]
        initState).state.participants =
      [{ id := "u1", name := "Al", stream := none, isMicOn := true,
         isCameraOn := true }] ∧
    (handleExistingUsers [{ userId := "u1", userName := "Al" },
        { userId := "u1", userName := "Bob" }]
        initState).state.participants ≠
      [{ id := "u1", name := "Bob", stream := none, isMicOn := true,
         isCameraOn := true }] := by
  decide

/-- Claim C5 (amended): the existing-users snapshot bulk-replaces the
roster with the delivered list deduplicated by id, keeping for each id the
name of its first occurrence (not the last): the resulting ids are
duplicate-free, each kept entry is the first delivered entry with its id,
and every delivered id keeps exactly one roster entry. -/
theorem existingUsers_dedups_keeping_first :
    ∀ (users : List JoinReq) (s : RTCState),
      ((handleExistingUsers users s).state.participants =
        (existingUsersDedup users).map freshParticipant) ∧
      (handleExistingUsers users s).state.connectionStatus =
        ConnStatus.joined ∧
      (handleExistingUsers users s).out = [] ∧
      ((existingUsersDedup users).map (fun u => u.userId)).Nodup ∧
      (∀ v ∈ existingUsersDedup users,
        users.find? (fun w => w.userId == v.userId) = some v) ∧
      ∀ id : String,
        id ∈ (existingUsersDedup users).map (fun u => u.userId) ↔
          ∃ v ∈ users, v.userId = id := by
  intro users s
  have hbr := existingUsersDedup_eq_aux users
  refine ⟨rfl, rfl, rfl, ?_, ?_, ?_⟩
  · rw [hbr]
    exact dedupFirstAux_ids_nodup (fun _ => true) users
  · rw [hbr]
    exact dedupFirstAux_first (fun _ => true) users
  · intro id
    rw [hbr,
      dedupFirstAux_mem_ids (fun _ => true) users (fun v w h => rfl) id]
    simp

/-- Witness for C5 (amended): in the duplicated delivery the kept entry
for u1 is the first occurrence, named Al. -/
theorem existingUsers_dedups_keeping_first_witness :
    [({ userId := "u1", userName := "Al" } : JoinReq),
        { userId := "u1", userName := "Bob" }].find?
        (fun w => w.userId == "u1") =
      some { userId := "u1", userName := "Al" } :=
  (existingUsers_dedups_keeping_first
      [{ userId := "u1", userName := "Al" },
        { userId := "u1", userName := "Bob" }]
      initState).2.2.2.2.1
    { userId := "u1", userName := "Al" } (by decide)

end MeetingApp
